import Mathlib

/-!
Verification of the UniFi firmware browser service layer.

The definitions below are a shallow embedding of the `FirmwareService`
class and its helpers (types, the in-memory URL cache, the query-string
builders, and the pure presentation helpers).  JavaScript runtime
behaviour that the code relies on is modelled explicitly:

* JSON values are modelled by the inductive `JsValue`; JavaScript
  truthiness is `JsValue.truthy`.
* `fetch` is modelled by an oracle `Net : String -> NetResult` mapping a
  URL to either an HTTP response (status, status text, parsed JSON body)
  or a transport failure carrying the thrown error message.  A body that
  fails JSON parsing throws before the cache is written, exactly like a
  transport failure, so it is folded into `NetResult.failure`.
* JavaScript numbers are modelled as exact integers / rationals; the
  transcendental computation in `formatFileSize` is modelled exactly.
* String helpers of the JavaScript runtime (`toLowerCase`, `trim`,
  `includes`, `localeCompare`, `URLSearchParams` serialization) are
  modelled by executable functions, exact on ASCII data.
-/

/-- A parsed JSON value (the `any` produced by `response.json()`). -/
inductive JsValue where
  | null
  | bool (b : Bool)
  | num (n : Int)
  | str (s : String)
  | arr (elems : List JsValue)
  | obj (fields : List (String × JsValue))

/-- JavaScript truthiness of a JSON value: `null`, `false`, `0` and the
empty string are falsy; arrays and objects are always truthy. -/
def JsValue.truthy : JsValue → Bool
  | .null => false
  | .bool b => b
  | .num n => n != 0
  | .str s => s != ""
  | .arr _ => true
  | .obj _ => true

/-- One HTTP response as seen by the service: status code, status text
and the parsed JSON body. -/
structure NetResponse where
  status : Nat
  statusText : String
  body : JsValue

/-- `Response.ok` of the fetch API: status in the range 200-299. -/
def NetResponse.ok (r : NetResponse) : Bool :=
  200 ≤ r.status && r.status < 300

/-- Result of one `fetch(url)` call: a response, or a transport failure
(rejected promise) carrying the thrown error message. -/
inductive NetResult where
  | response (r : NetResponse)
  | failure (msg : String)

/-- The network oracle: what the remote returns for each URL. -/
def Net : Type := String → NetResult

/-- The in-memory cache `private cache = new Map<string, any>()`,
modelled as an association list with `Map.set` overwrite semantics. -/
def Cache : Type := List (String × JsValue)

/-- `Map.get`: the stored value for a key, if present. -/
def cacheGet (cache : Cache) (key : String) : Option JsValue :=
  (List.find? (fun p => p.1 == key) cache).map (fun p => p.2)

/-- `getCacheKey(url)`: the identity, the URL itself is the key. -/
def getCacheKey (url : String) : String := url

/-- `getCached(key)`: `this.cache.get(key) || null` — the stored value
when it is truthy, JavaScript `null` otherwise. -/
def getCached (cache : Cache) (key : String) : JsValue :=
  match cacheGet cache key with
  | some v => if v.truthy then v else JsValue.null
  | none => JsValue.null

/-- `setCache(key, data)`: `Map.set`, overwriting an existing entry. -/
def setCache (cache : Cache) (key : String) (data : JsValue) : Cache :=
  match cache with
  | [] => [(key, data)]
  | (k, v) :: rest =>
    if k == key then (key, data) :: rest else (k, v) :: setCache rest key data

/-- The message of the error thrown on a non-ok response:
`Failed to fetch: ${response.status} ${response.statusText}`. -/
def fetchFailMessage (status : Nat) (statusText : String) : String :=
  "Failed to fetch: " ++ toString status ++ " " ++ statusText

/-- Outcome of one `cachedFetch` call: the returned value or thrown
error message, the cache afterwards, and how many network requests the
call performed (0 or 1). -/
structure FetchResult where
  outcome : Except String JsValue
  cache : Cache
  requests : Nat

/-- `cachedFetch(url)`: check the cache first (a truthy stored value is
a hit); on a miss fetch, throw on a non-ok response, otherwise store the
parsed body and return it. -/
def cachedFetch (net : Net) (cache : Cache) (url : String) : FetchResult :=
  let cacheKey := getCacheKey url
  let cached := getCached cache cacheKey
  if cached.truthy then
    { outcome := .ok cached, cache := cache, requests := 0 }
  else
    match net url with
    | .failure msg => { outcome := .error msg, cache := cache, requests := 1 }
    | .response r =>
      if r.ok then
        { outcome := .ok r.body, cache := setCache cache cacheKey r.body, requests := 1 }
      else
        { outcome := .error (fetchFailMessage r.status r.statusText), cache := cache, requests := 1 }

/-- `hasPrefixChars needle hay`: does `hay` start with `needle`? -/
def hasPrefixChars : List Char → List Char → Bool
  | [], _ => true
  | _ :: _, [] => false
  | a :: as, b :: bs => a == b && hasPrefixChars as bs

/-- Does `hay` contain `needle` as a contiguous run? -/
def includesChars (needle : List Char) : List Char → Bool
  | [] => hasPrefixChars needle []
  | c :: rest => hasPrefixChars needle (c :: rest) || includesChars needle rest

/-- Model of `String.prototype.includes`. -/
def jsIncludes (s pattern : String) : Bool :=
  includesChars pattern.data s.data

/-- URL constants of the service. -/
def baseUrl : String := "https://fw-update.ubnt.com/api"

def firmwareEndpoint : String := "/firmware"

def firmwareLatestEndpoint : String := "/firmware-latest"

/-- The single-resource URL `${baseUrl}${firmwareEndpoint}/${id}`. -/
def firmwareByIdUrl (id : String) : String :=
  baseUrl ++ firmwareEndpoint ++ "/" ++ id

/-- Outcome of `getFirmwareById`: the item (`some`), the 404 sentinel
`null` (`none`), or a propagated error. -/
structure ByIdResult where
  outcome : Except String (Option JsValue)
  cache : Cache
  requests : Nat

/-- `getFirmwareById(id)`: fetch the single-resource URL; on an error
whose message contains `"404"` return `null`; rethrow anything else
(the outer catch only logs and rethrows). -/
def getFirmwareById (net : Net) (cache : Cache) (id : String) : ByIdResult :=
  let r := cachedFetch net cache (firmwareByIdUrl id)
  match r.outcome with
  | .ok data => { outcome := .ok (some data), cache := r.cache, requests := r.requests }
  | .error e =>
    if jsIncludes e "404" then
      { outcome := .ok none, cache := r.cache, requests := r.requests }
    else
      { outcome := .error e, cache := r.cache, requests := r.requests }

/-- The filter operators of the `FilterCondition` interface.  The
operator spelled `in` in the source is named `inOp` here because `in`
is reserved in Lean. -/
inductive FilterOp where
  | eq | ne | gt | gte | lt | lte | like | inOp

/-- The wire spelling of a filter operator. -/
def FilterOp.toStr : FilterOp → String
  | .eq => "eq"
  | .ne => "ne"
  | .gt => "gt"
  | .gte => "gte"
  | .lt => "lt"
  | .lte => "lte"
  | .like => "like"
  | .inOp => "in"

/-- One filter condition of the vendor query grammar. -/
structure FilterCondition where
  field : String
  operator : FilterOp
  value : String

/-- The `FirmwareFilters` interface; optional fields are `Option`. -/
structure FirmwareFilters where
  product : Option String := none
  platform : Option String := none
  channel : Option String := none
  version : Option String := none
  limit : Option Nat := none
  offset : Option Nat := none
  sort : Option String := none

/-- `buildFilterQuery(conditions)`: serialize each condition to
`filter=<operator>~~<field>~~<value>` and join with `&`. -/
def buildFilterQuery (conditions : List FilterCondition) : String :=
  String.intercalate "&"
    (conditions.map (fun c => "filter=" ++ c.operator.toStr ++ "~~" ++ c.field ++ "~~" ++ c.value))

/-- A value handed to `buildQueryParams`: `undefined`/`null`, a string,
or a number. -/
inductive ParamValue where
  | undef
  | str (s : String)
  | num (n : Nat)

/-- The entries appended by `buildQueryParams`: a value is skipped when
it is strictly equal to `undefined`, `null` or the empty string;
numbers are rendered with `toString()`. -/
def buildQueryParamsList : List (String × ParamValue) → List (String × String)
  | [] => []
  | (key, value) :: rest =>
    match value with
    | .undef => buildQueryParamsList rest
    | .str s => if s = "" then buildQueryParamsList rest else (key, s) :: buildQueryParamsList rest
    | .num n => (key, toString n) :: buildQueryParamsList rest

/-- Hexadecimal digit (uppercase), for percent-encoding. -/
def hexDigit (n : Nat) : Char :=
  if n < 10 then Char.ofNat (48 + n) else Char.ofNat (55 + n)

/-- The UTF-8 bytes of one character. -/
def utf8Bytes (c : Char) : List Nat :=
  let n := c.toNat
  if n < 128 then [n]
  else if n < 2048 then [192 + n / 64, 128 + n % 64]
  else if n < 65536 then [224 + n / 4096, 128 + (n / 64) % 64, 128 + n % 64]
  else [240 + n / 262144, 128 + (n / 4096) % 64, 128 + (n / 64) % 64, 128 + n % 64]

/-- `%XX` percent-encoding of one byte. -/
def percentEncodeByte (b : Nat) : List Char :=
  ['%', hexDigit (b / 16), hexDigit (b % 16)]

/-- The characters `application/x-www-form-urlencoded` leaves as-is:
ASCII alphanumerics and `*`, `-`, `.`, `_`. -/
def formUnreserved (c : Char) : Bool :=
  c.isAlphanum || c = '*' || c = '-' || c = '.' || c = '_'

/-- Form-urlencoding of one character: unreserved characters pass
through, space becomes `+`, everything else is percent-encoded per
UTF-8 byte. -/
def encodeFormChar (c : Char) : List Char :=
  if formUnreserved c then [c]
  else if c = ' ' then ['+']
  else ((utf8Bytes c).map percentEncodeByte).flatten

/-- Form-urlencoding of a string (model of the encoding that
`URLSearchParams.toString` applies to names and values). -/
def encodeForm (s : String) : String :=
  String.mk ((s.data.map encodeFormChar).flatten)

/-- `URLSearchParams.toString()`: encoded `name=value` pairs joined
with `&`. -/
def serializePairs (pairs : List (String × String)) : String :=
  String.intercalate "&" (pairs.map (fun p => encodeForm p.1 ++ "=" ++ encodeForm p.2))

/-- `buildQueryParams(params)`: append the defined, non-empty entries
to a `URLSearchParams` and serialize it. -/
def buildQueryParams (params : List (String × ParamValue)) : String :=
  serializePairs (buildQueryParamsList params)

/-- JavaScript `value || default` on an optional number: `undefined`
and `0` are falsy and give the default. -/
def jsOrDefault (value : Option Nat) (default : Nat) : Nat :=
  match value with
  | none => default
  | some n => if n = 0 then default else n

/-- The conditions built by `fetchFirmware`: the additional conditions
first, then one `eq` condition for each of `product`, `platform` and
`channel` that is truthy (set and non-empty). -/
def fetchFirmwareConditions (filters : FirmwareFilters)
    (additionalConditions : List FilterCondition) : List FilterCondition :=
  additionalConditions
    ++ (match filters.product with
        | some s => if s = "" then [] else [⟨"product", FilterOp.eq, s⟩]
        | none => [])
    ++ (match filters.platform with
        | some s => if s = "" then [] else [⟨"platform", FilterOp.eq, s⟩]
        | none => [])
    ++ (match filters.channel with
        | some s => if s = "" then [] else [⟨"channel", FilterOp.eq, s⟩]
        | none => [])

/-- The argument `fetchFirmware` passes to `buildQueryParams`:
`{ limit: filters.limit || 50, offset: filters.offset || 0, sort: filters.sort }`. -/
def fetchFirmwareParamsInput (filters : FirmwareFilters) : List (String × ParamValue) :=
  [("limit", ParamValue.num (jsOrDefault filters.limit 50)),
   ("offset", ParamValue.num (jsOrDefault filters.offset 0)),
   ("sort", match filters.sort with
            | none => ParamValue.undef
            | some s => ParamValue.str s)]

/-- The query string built by `fetchFirmware`:
`[filterQuery, params].filter(Boolean).join("&")`. -/
def fetchFirmwareQueryString (filters : FirmwareFilters)
    (additionalConditions : List FilterCondition) : String :=
  let filterQuery := buildFilterQuery (fetchFirmwareConditions filters additionalConditions)
  let params := buildQueryParams (fetchFirmwareParamsInput filters)
  String.intercalate "&" (List.filter (fun s => s != "") [filterQuery, params])

/-- The URL built by `fetchFirmware`; the `?` is added only when the
query string is non-empty. -/
def fetchFirmwareUrl (filters : FirmwareFilters)
    (additionalConditions : List FilterCondition) : String :=
  let queryString := fetchFirmwareQueryString filters additionalConditions
  baseUrl ++ firmwareEndpoint ++ (if queryString = "" then "" else "?" ++ queryString)

/-- `fetchFirmware(filters, additionalConditions)`: build the URL and
delegate to `cachedFetch`; its try/catch only logs and rethrows. -/
def fetchFirmware (net : Net) (cache : Cache) (filters : FirmwareFilters)
    (additionalConditions : List FilterCondition) : FetchResult :=
  cachedFetch net cache (fetchFirmwareUrl filters additionalConditions)

/-- Model of `String.prototype.trim` (exact on ASCII whitespace). -/
def jsTrim (s : String) : String :=
  String.mk (((s.data.dropWhile Char.isWhitespace).reverse.dropWhile Char.isWhitespace).reverse)

/-- `searchFirmware(searchTerm, filters)`: when the trimmed term is
truthy (non-empty), pass one extra `like` condition on `product` whose
value wraps the untrimmed term in `*`; then delegate to
`fetchFirmware`. -/
def searchFirmware (net : Net) (cache : Cache) (searchTerm : String)
    (filters : FirmwareFilters) : FetchResult :=
  let conditions : List FilterCondition :=
    if jsTrim searchTerm = "" then []
    else [⟨"product", FilterOp.like, "*" ++ searchTerm ++ "*"⟩]
  fetchFirmware net cache filters conditions

/-- A hyperlink reference (`{ href: string }`). -/
structure LinkRef where
  href : String

/-- An upload link entry (`{ name: string; href: string }`). -/
structure UploadLink where
  name : String
  href : String

/-- The `_links` object of a firmware item. -/
structure ItemLinks where
  self : LinkRef
  data : LinkRef
  upload : Option (List UploadLink) := none

/-- The `FirmwareItem` interface.  The floating-point
`probability_computed` is modelled as a rational. -/
structure FirmwareItem where
  id : String
  channel : String
  created : String
  updated : String
  file_size : Nat
  md5 : String
  sha256_checksum : String
  platform : String
  product : String
  version : String
  version_major : Int
  version_minor : Int
  version_patch : Int
  version_prerelease : Option String := none
  probability_computed : Rat
  tags : Option (List (String × JsValue)) := none
  _links : ItemLinks

/-- The `_embedded` object of a firmware response. -/
structure EmbeddedFirmware where
  firmware : List FirmwareItem

/-- The `_links` object of a firmware response. -/
structure ResponseLinks where
  self : LinkRef
  next : Option LinkRef := none
  prev : Option LinkRef := none

/-- The pagination metadata of a firmware response. -/
structure PageInfo where
  size : Nat
  totalElements : Nat
  totalPages : Nat
  number : Nat

/-- The `FirmwareResponse` interface. -/
structure FirmwareResponse where
  _embedded : EmbeddedFirmware
  _links : Option ResponseLinks := none
  page : Option PageInfo := none

/-- Model of `Char.toLowerCase` as applied by
`String.prototype.toLowerCase` (exact on ASCII). -/
def jsToLowerCase (s : String) : String :=
  String.mk (s.data.map Char.toLower)

/-- Code-point lexicographic order on character lists; `true` when the
first argument sorts before or equal to the second. -/
def charsLe : List Char → List Char → Bool
  | [], _ => true
  | _ :: _, [] => false
  | a :: as, b :: bs => if a = b then charsLe as bs else decide (a < b)

/-- The comparator `(a, b) => a.toLowerCase().localeCompare(b.toLowerCase())`
of `getInitialFilterValues`, as the relation "a sorts before or equal
to b".  `localeCompare` is modelled as code-point comparison, exact for
ASCII data. -/
def sortAlphabetically (a b : String) : Bool :=
  charsLe (jsToLowerCase a).data (jsToLowerCase b).data

/-- `new Set(list)` followed by `Array.from`: the distinct members in
first-occurrence order.  `seen` holds the members already emitted. -/
def dedupAcc (seen : List String) : List String → List String
  | [] => []
  | x :: xs => if x ∈ seen then dedupAcc seen xs else x :: dedupAcc (x :: seen) xs

/-- `Array.from(new Set(list))`. -/
def setToList (l : List String) : List String :=
  dedupAcc [] l

/-- Model of `Array.prototype.toSorted(sortAlphabetically)`: a stable
sort by the comparator. -/
def toSortedAlphabetically (l : List String) : List String :=
  List.insertionSort (fun a b => sortAlphabetically a b = true) l

/-- The record returned by `getInitialFilterValues`. -/
structure FilterValues where
  products : List String
  platforms : List String
  channels : List String
deriving DecidableEq

/-- `getInitialFilterValues()`: from the outcome of
`fetchLatestFirmware`, extract the distinct `product`, `platform` and
`channel` values of the embedded items and sort each list with the
case-insensitive comparator; on any failure swallow the error (it is
only logged) and return three empty lists. -/
def getInitialFilterValues (fetchResult : Except String FirmwareResponse) : FilterValues :=
  match fetchResult with
  | .error _ => { products := [], platforms := [], channels := [] }
  | .ok response =>
    let firmware := response._embedded.firmware
    { products := toSortedAlphabetically (setToList (firmware.map (fun fw => fw.product))),
      platforms := toSortedAlphabetically (setToList (firmware.map (fun fw => fw.platform))),
      channels := toSortedAlphabetically (setToList (firmware.map (fun fw => fw.channel))) }

/-- The unit-label table `["B", "KB", "MB", "GB"]`. -/
def sizes : List String := ["B", "KB", "MB", "GB"]

/-- `Math.floor(Math.log(bytes) / Math.log(1024))`, computed exactly:
the number of times 1024 divides into `b` down to a value below 1024.
The first argument is fuel; `unitIndex` supplies enough. -/
def logDiv1024 : Nat → Nat → Nat
  | 0, _ => 0
  | fuel + 1, b => if b < 1024 then 0 else logDiv1024 fuel (b / 1024) + 1

/-- The index `i` of `formatFileSize`. -/
def unitIndex (bytes : Nat) : Nat :=
  logDiv1024 bytes bytes

/-- `(num / den).toFixed(1)` for a non-negative exact fraction: the
tenths count is `floor(num / den * 10 + 1 / 2)`, computed in integers
as `(20 * num + den) / (2 * den)`, then printed with one decimal. -/
def toFixed1Frac (num den : Nat) : String :=
  let tenths := (20 * num + den) / (2 * den)
  toString (tenths / 10) ++ "." ++ toString (tenths % 10)

/-- `formatFileSize(bytes)`: `0` renders as `"0 B"`; otherwise one
decimal of `bytes / 1024 ^ i` followed by `sizes[i]`.  An index past
the end of `sizes` is JavaScript `undefined` and renders as the string
`"undefined"` in the template literal. -/
def formatFileSize (bytes : Nat) : String :=
  if bytes = 0 then "0 B"
  else
    let i := unitIndex bytes
    let size := toFixed1Frac bytes (1024 ^ i)
    size ++ " " ++ sizes.getD i "undefined"

/-- `channel.charAt(0).toUpperCase() + channel.slice(1)` (exact on
ASCII; for the empty string both parts are empty). -/
def capitalizeFirst (s : String) : String :=
  match s.data with
  | [] => ""
  | c :: rest => String.mk (Char.toUpper c :: rest)

/-- `isStableChannel(channel)`. -/
def isStableChannel (channel : String) : Bool :=
  channel == "release"

/-- `getChannelDisplayName(channel)`: the switch over the known
channels with a capitalize-first fallback. -/
def getChannelDisplayName (channel : String) : String :=
  if channel = "release" then "Official"
  else if channel = "beta-public" then "Beta"
  else if channel = "beta" then "Beta"
  else if channel = "alpha" then "Alpha"
  else capitalizeFirst channel

/-- `getDownloadUrl(firmware)`: the `_links.data.href` of the item. -/
def getDownloadUrl (firmware : FirmwareItem) : String :=
  firmware._links.data.href

/-! Concrete instances used by witnesses and counterexamples. -/

/-- A backend that answers every URL with a truthy JSON body. -/
def netTruthy : Net := fun _ => .response ⟨200, "OK", .str "payload"⟩

/-- A backend that answers every URL with HTTP 200 and the (falsy)
JSON body `0`. -/
def netFalsyBody : Net := fun _ => .response ⟨200, "OK", .num 0⟩

/-- A backend whose every request fails at the transport level. -/
def netDown : Net := fun _ => .failure "network down"

/-- A backend that answers every URL with HTTP 404. -/
def net404 : Net := fun _ => .response ⟨404, "Not Found", .null⟩

/-- A backend that answers every URL with HTTP 500. -/
def net500 : Net := fun _ => .response ⟨500, "Internal Server Error", .null⟩

/-- A backend that answers every URL with HTTP 500 and a status text
that happens to contain the digits 404. -/
def net500With404Text : Net := fun _ => .response ⟨500, "Device 404 upstream", .null⟩

/-- The empty cache a fresh service starts with. -/
def emptyCache : Cache := []

/-- Filters with every field unset. -/
def noFilters : FirmwareFilters := {}

/-- A URL used by concrete cache scenarios. -/
def sampleUrl : String := "https://fw-update.ubnt.com/api/firmware-latest"

/-- A firmware item with the given product, platform and channel and
neutral remaining fields. -/
def sampleItem (product platform channel : String) : FirmwareItem :=
  { id := product ++ "-" ++ platform
    channel := channel
    created := "2024-01-01T00:00:00Z"
    updated := "2024-01-01T00:00:00Z"
    file_size := 1024
    md5 := "d41d8cd98f00b204e9800998ecf8427e"
    sha256_checksum := ""
    platform := platform
    product := product
    version := "1.0.0"
    version_major := 1
    version_minor := 0
    version_patch := 0
    probability_computed := 0
    _links := { self := ⟨""⟩, data := ⟨""⟩ } }

/-- A firmware-latest response whose items carry the products
`["B", "a", "C"]`. -/
def sampleResponse : FirmwareResponse :=
  { _embedded :=
      { firmware :=
          [sampleItem "B" "s5l" "release",
           sampleItem "a" "cv22" "beta",
           sampleItem "C" "s2l" "alpha"] } }

/-! Supporting lemmas. -/

theorem cacheGet_setCache (cache : Cache) (key : String) (data : JsValue) :
    cacheGet (setCache cache key data) key = some data := by
  induction cache with
  | nil => simp [setCache, cacheGet, List.find?]
  | cons p rest ih =>
    obtain ⟨k, v⟩ := p
    by_cases h : k == key
    · simp [setCache, h, cacheGet, List.find?]
    · simp only [setCache, h] at ih ⊢
      simp only [cacheGet, List.find?] at ih ⊢
      simp [h, ih]

theorem getCached_setCache (cache : Cache) (key : String) (data : JsValue) :
    getCached (setCache cache key data) key
      = if data.truthy then data else JsValue.null := by
  simp [getCached, cacheGet_setCache]

theorem hasPrefixChars_append (needle tail : List Char) :
    hasPrefixChars needle (needle ++ tail) = true := by
  induction needle with
  | nil => rfl
  | cons c cs ih => simp [hasPrefixChars, ih]

theorem includesChars_nil (hay : List Char) : includesChars [] hay = true := by
  cases hay <;> simp [includesChars, hasPrefixChars]

theorem includesChars_append (needle pre post : List Char) :
    includesChars needle (pre ++ (needle ++ post)) = true := by
  induction pre with
  | nil =>
    cases needle with
    | nil => simpa using includesChars_nil post
    | cons a as =>
      simp only [includesChars, List.nil_append, Bool.or_eq_true]
      exact Or.inl (by simpa using hasPrefixChars_append (a :: as) post)
  | cons c cs ih => simp [includesChars, ih]

theorem jsIncludes_fetchFailMessage_404 (statusText : String) :
    jsIncludes (fetchFailMessage 404 statusText) "404" = true := by
  have h : fetchFailMessage 404 statusText
      = "Failed to fetch: " ++ ("404" ++ (" " ++ statusText)) := by
    simp [fetchFailMessage, String.append_assoc]
    rfl
  rw [h]
  simp only [jsIncludes, String.data_append]
  exact includesChars_append _ _ _

theorem charsLe_total (as bs : List Char) :
    charsLe as bs = true ∨ charsLe bs as = true := by
  induction as generalizing bs with
  | nil => exact Or.inl rfl
  | cons a as ih =>
    cases bs with
    | nil => exact Or.inr rfl
    | cons b bs =>
      by_cases h : a = b
      · subst h
        simpa [charsLe] using ih bs
      · rcases lt_trichotomy a b with hlt | heq | hgt
        · exact Or.inl (by simp [charsLe, h, hlt])
        · exact absurd heq h
        · exact Or.inr (by simp [charsLe, Ne.symm h, hgt])

theorem charsLe_trans (as bs cs : List Char)
    (h1 : charsLe as bs = true) (h2 : charsLe bs cs = true) :
    charsLe as cs = true := by
  induction as generalizing bs cs with
  | nil => rfl
  | cons a as ih =>
    cases bs with
    | nil => simp [charsLe] at h1
    | cons b bs =>
      cases cs with
      | nil => simp [charsLe] at h2
      | cons c cs =>
        simp only [charsLe] at h1 h2 ⊢
        by_cases hab : a = b
        · subst hab
          by_cases hac : a = c
          · subst hac
            simp only [if_pos rfl] at h1 h2 ⊢
            exact ih bs cs h1 h2
          · simp only [if_neg hac] at h2 ⊢
            simpa using h2
        · by_cases hbc : b = c
          · subst hbc
            simp only [if_neg hab] at h1 ⊢
            exact h1
          · simp only [if_neg hab, if_neg hbc] at h1 h2
            have hlt : a < c := lt_trans (of_decide_eq_true h1) (of_decide_eq_true h2)
            simp [ne_of_lt hlt, hlt]

theorem mem_dedupAcc (l : List String) :
    ∀ seen s, s ∈ dedupAcc seen l ↔ s ∈ l ∧ s ∉ seen := by
  induction l with
  | nil => simp [dedupAcc]
  | cons x xs ih =>
    intro seen s
    by_cases hx : x ∈ seen
    · simp only [dedupAcc, if_pos hx, ih, List.mem_cons]
      constructor
      · rintro ⟨hs, hns⟩
        exact ⟨Or.inr hs, hns⟩
      · rintro ⟨hs | hs, hns⟩
        · exact absurd (hs ▸ hx) hns
        · exact ⟨hs, hns⟩
    · simp only [dedupAcc, if_neg hx, List.mem_cons, ih, not_or]
      constructor
      · rintro (rfl | ⟨hs, _, hns2⟩)
        · exact ⟨Or.inl rfl, hx⟩
        · exact ⟨Or.inr hs, hns2⟩
      · rintro ⟨hs | hs, hns⟩
        · exact Or.inl hs
        · by_cases hsx : s = x
          · exact Or.inl hsx
          · exact Or.inr ⟨hs, hsx, hns⟩

theorem nodup_dedupAcc (l : List String) : ∀ seen, (dedupAcc seen l).Nodup := by
  induction l with
  | nil => intro seen; simp [dedupAcc]
  | cons x xs ih =>
    intro seen
    by_cases hx : x ∈ seen
    · simpa [dedupAcc, hx] using ih seen
    · simp only [dedupAcc, if_neg hx, List.nodup_cons]
      refine ⟨fun hmem => ?_, ih (x :: seen)⟩
      exact ((mem_dedupAcc xs (x :: seen) x).mp hmem).2 (List.mem_cons_self x seen)

theorem nodup_setToList (l : List String) : (setToList l).Nodup :=
  nodup_dedupAcc l []

theorem mem_setToList (l : List String) (s : String) : s ∈ setToList l ↔ s ∈ l := by
  simpa [setToList] using mem_dedupAcc l [] s

/-- The three properties of one extracted filter-value list: sorted by
the case-insensitive comparator, duplicate-free, and containing exactly
the values observed in the input. -/
theorem toSortedAlphabetically_setToList (l : List String) :
    List.Sorted (fun a b => sortAlphabetically a b = true) (toSortedAlphabetically (setToList l))
    ∧ (toSortedAlphabetically (setToList l)).Nodup
    ∧ ∀ s, s ∈ toSortedAlphabetically (setToList l) ↔ s ∈ l := by
  haveI htot : IsTotal String (fun a b => sortAlphabetically a b = true) :=
    ⟨fun a b => charsLe_total _ _⟩
  haveI htr : IsTrans String (fun a b => sortAlphabetically a b = true) :=
    ⟨fun a b c h1 h2 => charsLe_trans _ _ _ h1 h2⟩
  have hperm := List.perm_insertionSort
    (fun a b => sortAlphabetically a b = true) (setToList l)
  refine ⟨List.sorted_insertionSort _ _, hperm.nodup_iff.mpr (nodup_setToList l), fun s => ?_⟩
  rw [toSortedAlphabetically, hperm.mem_iff, mem_setToList]

/-- The entries `fetchFirmware` puts into its `URLSearchParams`:
`limit` and `offset` are always appended (with defaults 50 and 0),
`sort` only when it is set and non-empty. -/
theorem standardParamsList_eq (filters : FirmwareFilters) :
    buildQueryParamsList (fetchFirmwareParamsInput filters)
      = [("limit", toString (jsOrDefault filters.limit 50)),
         ("offset", toString (jsOrDefault filters.offset 0))]
        ++ (match filters.sort with
            | none => []
            | some s => if s = "" then [] else [("sort", s)]) := by
  cases hs : filters.sort with
  | none => simp [fetchFirmwareParamsInput, buildQueryParamsList, hs]
  | some s =>
    by_cases h : s = "" <;>
      simp [fetchFirmwareParamsInput, buildQueryParamsList, hs, h]

theorem logDiv1024_eq_log : ∀ fuel b, b ≤ fuel → logDiv1024 fuel b = Nat.log 1024 b := by
  intro fuel
  induction fuel with
  | zero =>
    intro b hb
    have : b = 0 := Nat.le_zero.mp hb
    subst this
    simp [logDiv1024]
  | succ n ih =>
    intro b hb
    by_cases h : b < 1024
    · simp [logDiv1024, h, Nat.log_of_lt h]
    · push_neg at h
      have hbpos : 0 < b := lt_of_lt_of_le (by norm_num) h
      have hdiv : b / 1024 ≤ n := by
        have hlt : b / 1024 < b := Nat.div_lt_self hbpos (by norm_num)
        omega
      simp only [logDiv1024, if_neg (not_lt.mpr h)]
      rw [ih _ hdiv]
      have h1 : 0 < Nat.log 1024 b := Nat.log_pos (by norm_num) h
      have h2 := Nat.log_div_base 1024 b
      omega

theorem unitIndex_eq_log (bytes : Nat) : unitIndex bytes = Nat.log 1024 bytes :=
  logDiv1024_eq_log bytes bytes le_rfl

/-! Claim theorems. -/

/-- Claim C1 (counterexample): the cache lookup tests JavaScript
truthiness, so a successfully fetched falsy JSON body (here the number
`0`, served with HTTP 200) is stored but never recognized as a hit: the
second call for the same URL performs a network request again, contrary
to the claim that no second request happens after any successful
call. -/
theorem cachedFetch_falsy_refetches :
    (cachedFetch netFalsyBody emptyCache sampleUrl).outcome = Except.ok (JsValue.num 0)
    ∧ (cachedFetch netFalsyBody emptyCache sampleUrl).cache
        = [(sampleUrl, JsValue.num 0)]
    ∧ (cachedFetch netFalsyBody
        (cachedFetch netFalsyBody emptyCache sampleUrl).cache sampleUrl).requests = 1 :=
  ⟨rfl, rfl, rfl⟩

/-- Claim C1 (amended): after a first `cachedFetch` call for a URL that
succeeds with a truthy value, a second call for the same URL (with no
intervening cache clear) performs no network request and returns a
value structurally equal to the first; a falsy response value is not
recognized by the truthiness-based cache lookup and is fetched
again. -/
theorem cachedFetch_cache_idempotent (net : Net) (cache : Cache) (url : String)
    (v : JsValue) (h1 : (cachedFetch net cache url).outcome = Except.ok v)
    (hv : v.truthy = true) :
    (cachedFetch net (cachedFetch net cache url).cache url).requests = 0
    ∧ (cachedFetch net (cachedFetch net cache url).cache url).outcome = Except.ok v := by
  by_cases h : (getCached cache (getCacheKey url)).truthy
  · simp only [cachedFetch, if_pos h] at h1 ⊢
    have hveq : getCached cache (getCacheKey url) = v := by
      simpa using h1
    simp [if_pos h, hveq]
  · simp only [cachedFetch, if_neg h] at h1 ⊢
    cases hnet : net url with
    | failure msg => simp [hnet] at h1
    | response r =>
      by_cases hok : r.ok
      · simp only [hnet, if_pos hok] at h1 ⊢
        have hbody : r.body = v := by
          simpa using h1
        subst hbody
        have hcached : getCached (setCache cache (getCacheKey url) r.body) (getCacheKey url)
            = r.body := by
          rw [getCached_setCache, if_pos hv]
        simp [hcached, hv]
      · simp [hnet, if_neg hok] at h1

/-- Claim C1 (witness): a truthy payload served once is returned from
the cache on the second call with no further request. -/
theorem cachedFetch_cache_idempotent_witness :
    (cachedFetch netTruthy (cachedFetch netTruthy emptyCache sampleUrl).cache sampleUrl).requests = 0
    ∧ (cachedFetch netTruthy (cachedFetch netTruthy emptyCache sampleUrl).cache sampleUrl).outcome
        = Except.ok (JsValue.str "payload") :=
  cachedFetch_cache_idempotent netTruthy emptyCache sampleUrl (JsValue.str "payload") rfl rfl

/-- Claim C5: when a `cachedFetch` call fails (non-success status or
transport failure), the error is raised, the cache is left unmodified
(no entry is stored for the URL), and a subsequent call for the same
URL performs the network request again in full. -/
theorem cachedFetch_no_negative_caching (net : Net) (cache : Cache) (url : String)
    (e : String) (h : (cachedFetch net cache url).outcome = Except.error e) :
    (cachedFetch net cache url).cache = cache
    ∧ (cachedFetch net cache url).requests = 1
    ∧ (cachedFetch net (cachedFetch net cache url).cache url).requests = 1 := by
  by_cases hc : (getCached cache (getCacheKey url)).truthy
  · simp [cachedFetch, if_pos hc] at h
  · simp only [cachedFetch, if_neg hc] at h ⊢
    cases hnet : net url with
    | failure msg => simp [hnet, if_neg hc]
    | response r =>
      by_cases hok : r.ok
      · simp [hnet, if_pos hok] at h
      · simp [hnet, if_neg hok, if_neg hc]

/-- Claim C5 (witness): a transport failure leaves the empty cache
empty and the retry performs a full network request. -/
theorem cachedFetch_no_negative_caching_witness :
    (cachedFetch netDown emptyCache sampleUrl).cache = emptyCache
    ∧ (cachedFetch netDown emptyCache sampleUrl).requests = 1
    ∧ (cachedFetch netDown (cachedFetch netDown emptyCache sampleUrl).cache sampleUrl).requests = 1 :=
  cachedFetch_no_negative_caching netDown emptyCache sampleUrl "network down" rfl

/-- Claim C2 (counterexample): the 404 handler tests
`error.message.includes("404")`, not the status code, so a failing
HTTP 500 response whose status text happens to contain the digits 404
is also mapped to `null` instead of propagating as an error. -/
theorem getFirmwareById_includes_counterexample :
    (getFirmwareById net500With404Text emptyCache "nonexistent").outcome
      = Except.ok none :=
  rfl

/-- Claim C2 (amended): on a cache miss, `getFirmwareById` returns
`null` whenever the underlying fetch throws an error whose message
contains `"404"` — which is the case for every HTTP 404 response — and
propagates any transport failure or failing response whose error
message does not contain `"404"`. -/
theorem getFirmwareById_error_mapping (net : Net) (cache : Cache) (id : String)
    (hmiss : (getCached cache (getCacheKey (firmwareByIdUrl id))).truthy = false) :
    (∀ statusText body,
      net (firmwareByIdUrl id) = NetResult.response ⟨404, statusText, body⟩ →
      (getFirmwareById net cache id).outcome = Except.ok none)
    ∧ (∀ msg, net (firmwareByIdUrl id) = NetResult.failure msg →
      jsIncludes msg "404" = false →
      (getFirmwareById net cache id).outcome = Except.error msg)
    ∧ (∀ r, net (firmwareByIdUrl id) = NetResult.response r →
      r.ok = false →
      jsIncludes (fetchFailMessage r.status r.statusText) "404" = false →
      (getFirmwareById net cache id).outcome
        = Except.error (fetchFailMessage r.status r.statusText)) := by
  refine ⟨?_, ?_, ?_⟩
  · intro statusText body hnet
    have hok : NetResponse.ok ⟨404, statusText, body⟩ = false := rfl
    simp [getFirmwareById, cachedFetch, hmiss, hnet, hok,
      jsIncludes_fetchFailMessage_404 statusText]
  · intro msg hnet hinc
    simp [getFirmwareById, cachedFetch, hmiss, hnet, hinc]
  · intro r hnet hok hinc
    simp [getFirmwareById, cachedFetch, hmiss, hnet, hok, hinc]

/-- Claim C2 (witness): a 404 from the remote yields `null`, and a 500
whose message does not contain 404 propagates as an error. -/
theorem getFirmwareById_error_mapping_witness :
    (getFirmwareById net404 emptyCache "nonexistent").outcome = Except.ok none
    ∧ (getFirmwareById net500 emptyCache "nonexistent").outcome
        = Except.error (fetchFailMessage 500 "Internal Server Error") :=
  ⟨(getFirmwareById_error_mapping net404 emptyCache "nonexistent" rfl).1
      "Not Found" JsValue.null rfl,
   (getFirmwareById_error_mapping net500 emptyCache "nonexistent" rfl).2.2
      ⟨500, "Internal Server Error", JsValue.null⟩ rfl rfl (by decide)⟩

/-- Claim C3 (counterexample): with `limit` unset the built query
string still contains `limit=50` (and `offset=0`), so unset or
default-valued `limit` and `offset` DO appear in the built URL,
contrary to the claim that they are appended only when
present/non-default. -/
theorem fetchFirmware_defaults_appear :
    noFilters.limit = none
    ∧ noFilters.offset = none
    ∧ fetchFirmwareQueryString noFilters [] = "limit=50&offset=0"
    ∧ jsIncludes (fetchFirmwareUrl noFilters []) "limit=" = true
    ∧ jsIncludes (fetchFirmwareUrl noFilters []) "offset=" = true :=
  ⟨rfl, rfl, by decide, by decide, by decide⟩

/-- Claim C3 (amended): `limit` and `offset` are always appended to the
query parameters, with the defaults 50 and 0 substituted when they are
unset (or zero); `sort` is appended only when it is present and
non-empty. -/
theorem fetchFirmware_standard_params (filters : FirmwareFilters) :
    buildQueryParamsList (fetchFirmwareParamsInput filters)
      = [("limit", toString (jsOrDefault filters.limit 50)),
         ("offset", toString (jsOrDefault filters.offset 0))]
        ++ (match filters.sort with
            | none => []
            | some s => if s = "" then [] else [("sort", s)]) :=
  standardParamsList_eq filters

/-- Claim C4: with `product`, `platform` and `channel` unset (or empty)
and no extra conditions, no filter condition is built, the query string
is exactly the serialized standard parameters, and the appended keys
are only `limit` and `offset` (plus `sort` when provided non-empty);
concretely, the all-default URL contains no `filter=` fragment. -/
theorem fetchFirmware_query_omission :
    (∀ filters : FirmwareFilters,
      (filters.product = none ∨ filters.product = some "") →
      (filters.platform = none ∨ filters.platform = some "") →
      (filters.channel = none ∨ filters.channel = some "") →
      fetchFirmwareConditions filters [] = []
      ∧ fetchFirmwareQueryString filters []
          = buildQueryParams (fetchFirmwareParamsInput filters)
      ∧ (buildQueryParamsList (fetchFirmwareParamsInput filters)).map Prod.fst
          = ["limit", "offset"]
            ++ (match filters.sort with
                | none => []
                | some s => if s = "" then [] else ["sort"]))
    ∧ jsIncludes (fetchFirmwareUrl noFilters []) "filter=" = false := by
  constructor
  · intro filters hp hpl hc
    have hcond : fetchFirmwareConditions filters [] = [] := by
      rcases hp with h1 | h1 <;> rcases hpl with h2 | h2 <;> rcases hc with h3 | h3 <;>
        simp [fetchFirmwareConditions, h1, h2, h3]
    refine ⟨hcond, ?_, ?_⟩
    · by_cases hparams : buildQueryParams (fetchFirmwareParamsInput filters) = ""
      · simp [fetchFirmwareQueryString, hcond, buildFilterQuery, hparams, String.intercalate]
      · simp [fetchFirmwareQueryString, hcond, buildFilterQuery, hparams, String.intercalate]
        rfl
    · rw [standardParamsList_eq]
      cases hs : filters.sort with
      | none => simp
      | some s => by_cases h : s = "" <;> simp [h]
  · decide

/-- Claim C4 (witness): the all-default filters build no conditions,
serialize only the standard parameters, and append only the keys
`limit` and `offset`. -/
theorem fetchFirmware_query_omission_witness :
    fetchFirmwareConditions noFilters [] = []
    ∧ fetchFirmwareQueryString noFilters []
        = buildQueryParams (fetchFirmwareParamsInput noFilters)
    ∧ (buildQueryParamsList (fetchFirmwareParamsInput noFilters)).map Prod.fst
        = ["limit", "offset"] :=
  fetchFirmware_query_omission.1 noFilters (Or.inl rfl) (Or.inl rfl) (Or.inl rfl)

/-- Claim C6: on any failure of the underlying fetch,
`getInitialFilterValues` swallows the error and returns exactly three
empty lists; the function is total, so it never throws. -/
theorem getInitialFilterValues_swallows_errors (e : String) :
    getInitialFilterValues (Except.error e)
      = { products := [], platforms := [], channels := [] } :=
  rfl

/-- Claim C7: on a successful firmware-latest response,
`getInitialFilterValues` returns, for products, platforms and channels
alike, a duplicate-free list sorted ascending by the case-insensitive
comparator and containing exactly the values observed on the embedded
items; in particular items with products `["B", "a", "C"]` give the
products list `["a", "B", "C"]`. -/
theorem getInitialFilterValues_extraction :
    (∀ response : FirmwareResponse,
      (List.Sorted (fun a b => sortAlphabetically a b = true)
          (getInitialFilterValues (Except.ok response)).products
        ∧ (getInitialFilterValues (Except.ok response)).products.Nodup
        ∧ ∀ s, s ∈ (getInitialFilterValues (Except.ok response)).products
            ↔ s ∈ response._embedded.firmware.map (fun fw => fw.product))
      ∧ (List.Sorted (fun a b => sortAlphabetically a b = true)
          (getInitialFilterValues (Except.ok response)).platforms
        ∧ (getInitialFilterValues (Except.ok response)).platforms.Nodup
        ∧ ∀ s, s ∈ (getInitialFilterValues (Except.ok response)).platforms
            ↔ s ∈ response._embedded.firmware.map (fun fw => fw.platform))
      ∧ (List.Sorted (fun a b => sortAlphabetically a b = true)
          (getInitialFilterValues (Except.ok response)).channels
        ∧ (getInitialFilterValues (Except.ok response)).channels.Nodup
        ∧ ∀ s, s ∈ (getInitialFilterValues (Except.ok response)).channels
            ↔ s ∈ response._embedded.firmware.map (fun fw => fw.channel)))
    ∧ (getInitialFilterValues (Except.ok sampleResponse)).products = ["a", "B", "C"] := by
  refine ⟨fun response => ⟨?_, ?_, ?_⟩, by decide⟩
  · exact toSortedAlphabetically_setToList
      (response._embedded.firmware.map (fun fw => fw.product))
  · exact toSortedAlphabetically_setToList
      (response._embedded.firmware.map (fun fw => fw.platform))
  · exact toSortedAlphabetically_setToList
      (response._embedded.firmware.map (fun fw => fw.channel))

/-- Claim C8 (counterexample): for one half terabyte the unit index is
4, past the end of the label table, so the rendered label is the string
`undefined` rather than one of B, KB, MB, GB. -/
theorem formatFileSize_huge_counterexample :
    formatFileSize (2 ^ 49) = "512.0 undefined"
    ∧ sizes.getD (unitIndex (2 ^ 49)) "undefined" ∉ sizes :=
  ⟨by decide, by decide⟩

/-- Claim C8 (amended): `formatFileSize` renders 0 as `"0 B"`,
1024 as `"1.0 KB"` and 1536 as `"1.5 KB"`; for every positive byte
count below `1024 ^ 4` the unit index `floor(log bytes / log 1024)`
stays within the table, the output is one rounded decimal of
`bytes / 1024 ^ i` followed by the selected label, and the label is one
of B, KB, MB, GB.  At `1024 ^ 4` and beyond the index leaves the table
and the label renders as `undefined`. -/
theorem formatFileSize_spec :
    formatFileSize 0 = "0 B"
    ∧ formatFileSize 1024 = "1.0 KB"
    ∧ formatFileSize 1536 = "1.5 KB"
    ∧ ∀ bytes : Nat, 0 < bytes → bytes < 1024 ^ 4 →
        Nat.log 1024 bytes < 4
        ∧ formatFileSize bytes
            = toFixed1Frac bytes (1024 ^ Nat.log 1024 bytes) ++ " "
              ++ sizes.getD (Nat.log 1024 bytes) "undefined"
        ∧ sizes.getD (Nat.log 1024 bytes) "undefined" ∈ sizes := by
  refine ⟨by decide, by decide, by decide, ?_⟩
  intro bytes hpos hlt
  have hne : bytes ≠ 0 := Nat.pos_iff_ne_zero.mp hpos
  have hlog : Nat.log 1024 bytes < 4 := Nat.log_lt_of_lt_pow hne hlt
  refine ⟨hlog, ?_, ?_⟩
  · simp [formatFileSize, hne, unitIndex_eq_log]
  · have h4 : (4 : Nat) = sizes.length := by decide
    rw [List.getD_eq_getElem sizes "undefined" (h4 ▸ hlog)]
    exact List.getElem_mem _

/-- Claim C8 (witness): the general statement instantiated at 1536
bytes. -/
theorem formatFileSize_spec_witness :
    Nat.log 1024 1536 < 4
    ∧ formatFileSize 1536
        = toFixed1Frac 1536 (1024 ^ Nat.log 1024 1536) ++ " "
          ++ sizes.getD (Nat.log 1024 1536) "undefined"
    ∧ sizes.getD (Nat.log 1024 1536) "undefined" ∈ sizes :=
  formatFileSize_spec.2.2.2 1536 (by decide) (by decide)

/-- Claim C9: `getChannelDisplayName` maps release to Official, both
beta and beta-public to Beta, alpha to Alpha, and any other channel to
itself with the first character upper-cased (so rc gives Rc). -/
theorem getChannelDisplayName_mapping :
    getChannelDisplayName "release" = "Official"
    ∧ getChannelDisplayName "beta-public" = "Beta"
    ∧ getChannelDisplayName "beta" = "Beta"
    ∧ getChannelDisplayName "alpha" = "Alpha"
    ∧ getChannelDisplayName "rc" = "Rc"
    ∧ capitalizeFirst "rc" = "Rc"
    ∧ ∀ channel : String,
        channel ∉ ["release", "beta-public", "beta", "alpha"] →
        getChannelDisplayName channel = capitalizeFirst channel := by
  refine ⟨by decide, by decide, by decide, by decide, by decide, by decide, ?_⟩
  intro channel h
  simp only [List.mem_cons, List.not_mem_nil, or_false, not_or] at h
  obtain ⟨h1, h2, h3, h4⟩ := h
  simp [getChannelDisplayName, h1, h2, h3, h4]

/-- Claim C9 (witness): the fallback applied to an unknown channel. -/
theorem getChannelDisplayName_mapping_witness :
    getChannelDisplayName "g6" = capitalizeFirst "g6" :=
  getChannelDisplayName_mapping.2.2.2.2.2.2 "g6" (by decide)

/-- Claim C10: a search term that trims to the empty string passes no
extra condition, so the result is that of `fetchFirmware(filters, [])`;
a non-blank term passes exactly one condition, `like` on `product`
with the untrimmed term wrapped in asterisks. -/
theorem searchFirmware_conditions (net : Net) (cache : Cache)
    (searchTerm : String) (filters : FirmwareFilters) :
    (jsTrim searchTerm = "" →
      searchFirmware net cache searchTerm filters
        = fetchFirmware net cache filters [])
    ∧ (jsTrim searchTerm ≠ "" →
      searchFirmware net cache searchTerm filters
        = fetchFirmware net cache filters
            [⟨"product", FilterOp.like, "*" ++ searchTerm ++ "*"⟩]) := by
  constructor <;> intro h <;> simp [searchFirmware, h]

/-- Claim C10 (witness): a blank term searches with no extra condition;
the term g4 searches with the single condition like on product with
value *g4*. -/
theorem searchFirmware_conditions_witness :
    searchFirmware netTruthy emptyCache "   " noFilters
      = fetchFirmware netTruthy emptyCache noFilters []
    ∧ searchFirmware netTruthy emptyCache "g4" noFilters
        = fetchFirmware netTruthy emptyCache noFilters
            [⟨"product", FilterOp.like, "*g4*"⟩] :=
  ⟨(searchFirmware_conditions netTruthy emptyCache "   " noFilters).1 (by decide),
   (searchFirmware_conditions netTruthy emptyCache "g4" noFilters).2 (by decide)⟩
